import Mathlib

/-!
Shallow embedding of the FlowBuddy persistence module
(src/addons/shortcuts/shortcuts_save.py).

The JSON save document has three top-level mappings.  Python dicts preserve
insertion order, so each mapping is modelled as an ordered association list:
alookup models key lookup, aupdate models dict.update with a one-entry dict
(replace the entry in place when the key exists, otherwise append at the
end), aerase models del d[k] / dict.pop.  Setting values are opaque to
every operation, so they are modelled as strings.

Exceptions are modelled by the PyExc type and Except-valued results;
operations that write the save file and can also raise return a pair of
the resulting document and an Except value, because in the Python code a
write performed before a later raise persists.  The mutually recursive
deletion routines are given an explicit fuel argument; PyExc.fuelExhausted
marks only fuel running out and is distinct from every Python exception.
-/

structure TaskRec where
  task_name : String
  button_text : Option String
  url : List String
  file_path : Option String
  directory_path : Option String
  deriving DecidableEq, Repr

structure GroupRec where
  group_name : String
  group_tasks : List String
  deriving DecidableEq, Repr

structure Doc where
  settings : List (String × String)
  groups : List (String × GroupRec)
  tasks : List (String × TaskRec)
  deriving DecidableEq, Repr

def alookup {α : Type} : List (String × α) → String → Option α
  | [], _ => none
  | (k, v) :: rest, key => if k = key then some v else alookup rest key

def aupdate {α : Type} (key : String) (v : α) : List (String × α) → List (String × α)
  | [] => [(key, v)]
  | (k, w) :: rest => if k = key then (key, v) :: rest else (k, w) :: aupdate key v rest

def aerase {α : Type} (key : String) : List (String × α) → List (String × α)
  | [] => []
  | (k, w) :: rest => if k = key then rest else (k, w) :: aerase key rest

def akeys {α : Type} (l : List (String × α)) : List String := l.map (fun p => p.1)

inductive PyExc where
  | notFound (name : String)
  | found (name : String)
  | noTasks (group_name : String)
  | taskNotFoundInGroup (group_name task_id : String)
  | taskAlreadyInGroup (group_name task_id : String)
  | notFoundInFile (missing_id : String)
  | invalidURL (url : String)
  | keyError (key : String)
  | typeError
  | osError
  | unicodeDecodeError
  | fuelExhausted
  deriving DecidableEq, Repr

/-- is_id_used (lines 492-500): membership of the id in the key sets of both
the groups and the tasks mappings. -/
def is_id_used (i : String) (d : Doc) : Bool :=
  (akeys d.groups).contains i || (akeys d.tasks).contains i

/-- The id-generation loop shared by TaskClass.__init__ (lines 80-87) and
GroupClass.__init__ (lines 236-243).  pre is the literal prefix ("T_" or
"G_"); base models str(id(self)), the decimal address of the fresh object;
cur and count are the loop state, and the fuel argument bounds the number
of iterations of the Python while loop. -/
def genIdLoop (pre base : String) (d : Doc) : String → Nat → Nat → Option String
  | _, _, 0 => none
  | cur, count, fuel + 1 =>
    if is_id_used cur d then
      genIdLoop pre base d (pre ++ base ++ "-" ++ Nat.repr count) (count + 1) fuel
    else some cur

def gen_id (pre base : String) (d : Doc) (fuel : Nat) : Option String :=
  genIdLoop pre base d (pre ++ base) 1 fuel

/-- The observable part of a requests.get response: the final url (req.url)
and, for each entry of the redirect history, whether that hop is_redirect. -/
structure HttpResp where
  url : String
  history : List Bool
  deriving DecidableEq, Repr

/-- A network oracle: none models requests.exceptions.RequestException. -/
def Fetch : Type := String → Option HttpResp

/-- TaskClass.verify_url_root (lines 133-152).  The Python guard tests
whether the substring "http" occurs in url_check[:4]; a four-character
needle occurs in a string of length at most four exactly when that string
equals the needle, so the guard is embedded as equality of the first four
characters with "http". -/
def verify_url_root (fetch : Fetch) (url_check : String) : Option String :=
  let u := if String.mk (url_check.data.take 4) = "http" then url_check
           else "http://" ++ url_check
  match fetch u with
  | none => none
  | some r =>
    match r.history with
    | [] => some u
    | h :: _ => if h then some r.url else none

/-- new_url.replace(",", " ").split(): commas become spaces, then the string
is split on runs of whitespace with empty pieces dropped. -/
def splitWsAux : List Char → List Char → List String
  | [], acc => if acc.isEmpty then [] else [String.mk acc.reverse]
  | c :: rest, acc =>
    if c.isWhitespace then
      if acc.isEmpty then splitWsAux rest []
      else String.mk acc.reverse :: splitWsAux rest []
    else splitWsAux rest (c :: acc)

def pySplit (s : String) : List String :=
  splitWsAux (s.data.map (fun c => if c = ',' then ' ' else c)) []

/-- The for-loop of the url setter (lines 125-129): for index, _url in
enumerate(url_list), overwrite url_list[index] on success and
url_list.pop(index) on failure.  Both the enumerate counter and the
position of the underlying list iterator advance by one after every
yielded element, including after a pop, which is why the else branch
continues at i + 1 of the shrunk list.  The first argument is structural
fuel: every step increments i and never lengthens the list, so the
remaining iteration count l.length - i falls by at least one per step;
starting the fuel at l.length - i therefore makes the fuel-out branch
(which returns the list, exactly like the loop-exit branch) unreachable. -/
def urlLoopGo (verify : String → Option String) : Nat → List String → Nat → List String
  | 0, l, _ => l
  | n + 1, l, i =>
    if h : i < l.length then
      match verify (l.get ⟨i, h⟩) with
      | some fixed => urlLoopGo verify n (l.set i fixed) (i + 1)
      | none => urlLoopGo verify n (l.eraseIdx i) (i + 1)
    else l

def urlLoop (verify : String → Option String) (l : List String) (i : Nat) : List String :=
  urlLoopGo verify (l.length - i) l i

/-- The url argument of TaskClass.__init__ and edit_task: None, a list used
verbatim, or a delimited string. -/
inductive UrlArg where
  | noneU
  | listU (l : List String)
  | strU (s : String)
  deriving DecidableEq, Repr

/-- The url property setter (lines 115-131). -/
def url_setter (fetch : Fetch) (new_url : UrlArg) : List String :=
  match new_url with
  | UrlArg.noneU => []
  | UrlArg.listU l => l
  | UrlArg.strU s => urlLoop (verify_url_root fetch) (pySplit s) 0

structure TaskClass where
  task_id : String
  group_id : String
  task_name : String
  button_text : Option String
  url : List String
  file_path : Option String
  directory_path : Option String
  deriving DecidableEq, Repr

/-- TaskClass.get_task_data (lines 179-192). -/
def get_task_data (t : TaskClass) : TaskRec :=
  { task_name := t.task_name
    button_text := t.button_text
    url := t.url
    file_path := t.file_path
    directory_path := t.directory_path }

/-- TaskClass.save_task (lines 203-214): read-modify-write of tasks[id]. -/
def save_task (t : TaskClass) (d : Doc) : Doc :=
  { d with tasks := aupdate t.task_id (get_task_data t) d.tasks }

/-- TaskClass.__init__ (lines 58-96): generate an id when none is supplied,
run the url setter, save immediately. -/
def TaskClass.make (fetch : Fetch) (base : String) (fuel : Nat)
    (group_id task_name : String) (task_id : Option String)
    (button_text : Option String) (url : UrlArg)
    (file_path directory_path : Option String) (d : Doc) :
    Doc × Except PyExc TaskClass :=
  match (match task_id with
         | none => gen_id "T_" base d fuel
         | some t => some t) with
  | none => (d, Except.error PyExc.fuelExhausted)
  | some tid =>
    let t : TaskClass :=
      { task_id := tid
        group_id := group_id
        task_name := task_name
        button_text := button_text
        url := url_setter fetch url
        file_path := file_path
        directory_path := directory_path }
    (save_task t d, Except.ok t)

structure GroupClass where
  group_id : String
  group_name : String
  group_tasks : List String
  deriving DecidableEq, Repr

/-- GroupClass.save_group (lines 396-413). -/
def save_group (g : GroupClass) (d : Doc) : Doc :=
  { d with groups :=
      aupdate g.group_id { group_name := g.group_name, group_tasks := g.group_tasks } d.groups }

/-- GroupClass.__init__ (lines 218-252): generate an id when none is
supplied; an absent or empty task list becomes []; save immediately. -/
def GroupClass.make (base : String) (fuel : Nat) (group_name : String)
    (group_id : Option String) (group_tasks : Option (List String)) (d : Doc) :
    Doc × Except PyExc GroupClass :=
  match (match group_id with
         | none => gen_id "G_" base d fuel
         | some g => some g) with
  | none => (d, Except.error PyExc.fuelExhausted)
  | some gid =>
    let ts := match group_tasks with
      | none => []
      | some l => if l.isEmpty then [] else l
    let g : GroupClass := { group_id := gid, group_name := group_name, group_tasks := ts }
    (save_group g d, Except.ok g)

/-- GroupClass.__next__ (lines 258-265): after __iter__ sets i to 0, each
step yields group_tasks[i] while i < len(group_tasks) - 1.  group_tasks is
never None after __init__, so the NoTasks branch is unreachable. -/
def GroupClass.iterAux (l : List String) (i : Nat) : List String :=
  if h : i + 1 < l.length then
    l.get ⟨i, by omega⟩ :: GroupClass.iterAux l (i + 1)
  else []
termination_by l.length - i
decreasing_by omega

/-- Collecting every element produced by iterating the group. -/
def GroupClass.iterate (g : GroupClass) : List String :=
  GroupClass.iterAux g.group_tasks 0

/-- GroupClass.insert (lines 308-319).  list.insert clamps an index beyond
the end, so a natural-number index embeds as take/drop. -/
def GroupClass.insert (g : GroupClass) (index : Nat) (new_task_id : String) (d : Doc) :
    (GroupClass × Doc) × Except PyExc Unit :=
  if new_task_id ∈ g.group_tasks then
    ((g, d), Except.error (PyExc.taskAlreadyInGroup g.group_name new_task_id))
  else
    let g2 := { g with group_tasks :=
      g.group_tasks.take index ++ new_task_id :: g.group_tasks.drop index }
    ((g2, save_group g2 d), Except.ok ())

/-- GroupClass.append (lines 321-331). -/
def GroupClass.append (g : GroupClass) (new_task_id : String) (d : Doc) :
    (GroupClass × Doc) × Except PyExc Unit :=
  if new_task_id ∈ g.group_tasks then
    ((g, d), Except.error (PyExc.taskAlreadyInGroup g.group_name new_task_id))
  else
    let g2 := { g with group_tasks := g.group_tasks ++ [new_task_id] }
    ((g2, save_group g2 d), Except.ok ())

/-- GroupClass.remove (lines 333-343).  list.remove drops the first
occurrence, which is List.erase. -/
def GroupClass.remove (g : GroupClass) (task_id : String) (d : Doc) :
    (GroupClass × Doc) × Except PyExc Unit :=
  if task_id ∉ g.group_tasks then
    ((g, d), Except.error (PyExc.taskNotFoundInGroup g.group_name task_id))
  else
    let g2 := { g with group_tasks := g.group_tasks.erase task_id }
    ((g2, save_group g2 d), Except.ok ())

/-- GroupClass.create_task (lines 345-370): construct the task (which saves
itself), then append its id to group_tasks with a plain list append - the
duplicate check of GroupClass.append is not performed here - and save the
group. -/
def GroupClass.create_task (fetch : Fetch) (base : String) (fuel : Nat) (g : GroupClass)
    (task_name : String) (task_id : Option String) (button_text : Option String)
    (url : UrlArg) (file_path directory_path : Option String) (d : Doc) :
    Doc × Except PyExc (GroupClass × TaskClass) :=
  match TaskClass.make fetch base fuel g.group_id task_name task_id button_text
      url file_path directory_path d with
  | (d2, Except.error e) => (d2, Except.error e)
  | (d2, Except.ok t) =>
    let g2 := { g with group_tasks := g.group_tasks ++ [t.task_id] }
    (save_group g2 d2, Except.ok (g2, t))

/-- The scan of get_group_id_of_task (lines 472-481) over the groups
mapping in insertion order. -/
def groupScan (task_id : String) : List (String × GroupRec) → Except PyExc String
  | [] => Except.error (PyExc.notFound task_id)
  | (gid, gr) :: rest =>
    if task_id ∈ gr.group_tasks then Except.ok gid else groupScan task_id rest

def get_group_id_of_task (task_id : String) (d : Doc) : Except PyExc String :=
  groupScan task_id d.groups

/-- get_task_by_id (lines 416-441): check membership in the tasks mapping,
look up the owning group, then rehydrate through TaskClass.__init__, which
re-saves the record.  The task_data url is a list, so the url setter uses
it verbatim and the fetch oracle is never consulted on this path. -/
def get_task_by_id (fetch : Fetch) (task_id : String) (d : Doc) : Doc × Except PyExc TaskClass :=
  match alookup d.tasks task_id with
  | none => (d, Except.error (PyExc.notFoundInFile task_id))
  | some td =>
    match get_group_id_of_task task_id d with
    | Except.error e => (d, Except.error e)
    | Except.ok gid =>
      TaskClass.make fetch "" 0 gid td.task_name (some task_id) td.button_text
        (UrlArg.listU td.url) td.file_path td.directory_path d

/-- get_group_by_id (lines 445-461): json_data["groups"][group_id] raises
KeyError when absent; otherwise rehydrate through GroupClass.__init__,
which re-saves the record. -/
def get_group_by_id (group_id : String) (d : Doc) : Doc × Except PyExc GroupClass :=
  match alookup d.groups group_id with
  | none => (d, Except.error (PyExc.keyError group_id))
  | some gr =>
    GroupClass.make "" 0 gr.group_name (some group_id) (some gr.group_tasks) d

mutual

/-- TaskClass.delete_task (lines 194-201): rehydrate the owning group and
delegate to GroupClass.delete_task. -/
def TaskClass.delete_task (fetch : Fetch) (t : TaskClass) (fuel : Nat) (d : Doc) :
    Doc × Except PyExc Unit :=
  match fuel with
  | 0 => (d, Except.error PyExc.fuelExhausted)
  | fuel + 1 =>
    match get_group_by_id t.group_id d with
    | (d2, Except.error e) => (d2, Except.error e)
    | (d2, Except.ok g) =>
      match GroupClass.delete_task fetch g t.task_id fuel d2 with
      | ((_, d3), r) => (d3, r)
termination_by fuel

/-- GroupClass.delete_task (lines 372-382): raise when the id is not a
member, otherwise remove it from the member list (which saves the group)
and call delete_task_by_id. -/
def GroupClass.delete_task (fetch : Fetch) (g : GroupClass) (task_id : String) (fuel : Nat) (d : Doc) :
    (GroupClass × Doc) × Except PyExc Unit :=
  match fuel with
  | 0 => ((g, d), Except.error PyExc.fuelExhausted)
  | fuel + 1 =>
    if task_id ∉ g.group_tasks then
      ((g, d), Except.error (PyExc.taskNotFoundInGroup g.group_name task_id))
    else
      match GroupClass.remove g task_id d with
      | ((g2, d2), Except.error e) => ((g2, d2), Except.error e)
      | ((g2, d2), Except.ok _) =>
        match delete_task_by_id fetch task_id fuel d2 with
        | (d3, r) => ((g2, d3), r)
termination_by fuel

/-- delete_task_by_id (lines 464-469): load then delete. -/
def delete_task_by_id (fetch : Fetch) (task_id : String) (fuel : Nat) (d : Doc) :
    Doc × Except PyExc Unit :=
  match fuel with
  | 0 => (d, Except.error PyExc.fuelExhausted)
  | fuel + 1 =>
    match get_task_by_id fetch task_id d with
    | (d2, Except.error e) => (d2, Except.error e)
    | (d2, Except.ok t) => TaskClass.delete_task fetch t fuel d2
termination_by fuel

end

/-- The for-loop of delete_group_and_tasks (lines 305-306): for each member
id, get_task_by_id(task).delete_task(). -/
def cascadeDelete (fetch : Fetch) : List String → Nat → Doc → Doc × Except PyExc Unit
  | [], _, d => (d, Except.ok ())
  | _ :: _, 0, d => (d, Except.error PyExc.fuelExhausted)
  | t :: ts, fuel + 1, d =>
    match get_task_by_id fetch t d with
    | (d2, Except.error e) => (d2, Except.error e)
    | (d2, Except.ok tk) =>
      match TaskClass.delete_task fetch tk fuel d2 with
      | (d3, Except.error e) => (d3, Except.error e)
      | (d3, Except.ok _) => cascadeDelete fetch ts fuel d3

/-- GroupClass.delete_group_and_tasks (lines 291-306): pop the group entry
(dict.pop raises KeyError when absent), write the document, then loop over
the member ids. -/
def GroupClass.delete_group_and_tasks (fetch : Fetch) (g : GroupClass) (fuel : Nat) (d : Doc) :
    Doc × Except PyExc Unit :=
  match alookup d.groups g.group_id with
  | none => (d, Except.error (PyExc.keyError g.group_id))
  | some _ =>
    let d2 := { d with groups := aerase g.group_id d.groups }
    cascadeDelete fetch g.group_tasks fuel d2

/-- delete_group_by_id (lines 484-489): load then delete. -/
def delete_group_by_id (fetch : Fetch) (group_id : String) (fuel : Nat) (d : Doc) :
    Doc × Except PyExc Unit :=
  match get_group_by_id group_id d with
  | (d2, Except.error e) => (d2, Except.error e)
  | (d2, Except.ok g) => GroupClass.delete_group_and_tasks fetch g fuel d2

/-- apply_settings (lines 557-569). -/
def apply_settings (name : String) (value : String) (d : Doc) : Doc :=
  { d with settings := aupdate name value d.settings }

/-- get_setting (lines 572-583). -/
def get_setting (name : String) (d : Doc) : Except PyExc String :=
  match alookup d.settings name with
  | some v => Except.ok v
  | none => Except.error (PyExc.notFound name)

/-- remove_setting (lines 586-595): when the key is present, delete it and
write the document; then the function falls through to an unconditional
raise NotFound(name). -/
def remove_setting (name : String) (d : Doc) : Doc × Except PyExc Unit :=
  if (alookup d.settings name).isSome then
    ({ d with settings := aerase name d.settings }, Except.error (PyExc.notFound name))
  else
    (d, Except.error (PyExc.notFound name))

/-- load_groups (lines 503-511): list(json_data["groups"]) is the key list
in insertion order. -/
def load_groups (d : Doc) : List String := akeys d.groups

/-- load_tasks (lines 546-554). -/
def load_tasks (d : Doc) : List String := akeys d.tasks

/-- The states the backing file can be in when the module initializer
(lines 13-19) reads it.  For the parsed state the three booleans record
which of the required top-level keys are present; when a flag is false the
corresponding field of the carried document is meaningless. -/
inductive FileState where
  | missing
  | unreadable
  | badEncoding
  | notJson
  | jsonNonMapping
  | parsed (hasSettings hasGroups hasTasks : Bool) (d : Doc)
  deriving DecidableEq, Repr

def emptyDoc : Doc := { settings := [], groups := [], tasks := [] }

def emptyFileState : FileState := FileState.parsed true true true emptyDoc

/-- The module-level initializer (lines 13-19).  The except clause catches
exactly json.JSONDecodeError, FileNotFoundError and KeyError and then
writes the fresh empty document.  open() on an unreadable file raises
PermissionError (an OSError that is not FileNotFoundError), reading
undecodable bytes raises UnicodeDecodeError, and indexing a non-mapping
JSON value raises TypeError; none of the three is caught, so in those
states the exception propagates and the file is left as it was. -/
def initStore : FileState → FileState × Except PyExc Unit
  | FileState.missing => (emptyFileState, Except.ok ())
  | FileState.notJson => (emptyFileState, Except.ok ())
  | FileState.unreadable => (FileState.unreadable, Except.error PyExc.osError)
  | FileState.badEncoding => (FileState.badEncoding, Except.error PyExc.unicodeDecodeError)
  | FileState.jsonNonMapping => (FileState.jsonNonMapping, Except.error PyExc.typeError)
  | FileState.parsed s g t dd =>
    if s && g && t then (FileState.parsed s g t dd, Except.ok ())
    else (emptyFileState, Except.ok ())

/-! ### Helper lemmas about the association-list operations -/

theorem aupdate_self {α : Type} (k : String) (v : α) :
    ∀ l : List (String × α), alookup l k = some v → aupdate k v l = l := by
  intro l
  induction l with
  | nil => intro h; simp [alookup] at h
  | cons p rest ih =>
    obtain ⟨k2, w⟩ := p
    intro h
    by_cases he : k2 = k
    · subst he
      simp [alookup] at h
      simp [aupdate, h]
    · simp [alookup, he] at h
      simp [aupdate, he, ih h]

theorem aerase_of_lookup_none {α : Type} (k : String) :
    ∀ l : List (String × α), alookup l k = none → aerase k l = l := by
  intro l
  induction l with
  | nil => intro _; rfl
  | cons p rest ih =>
    obtain ⟨k2, w⟩ := p
    intro h
    by_cases he : k2 = k
    · subst he; simp [alookup] at h
    · simp [alookup, he] at h
      simp [aerase, he, ih h]

theorem iterAux_eq :
    ∀ (fuel : Nat) (l : List String) (i : Nat), l.length - i ≤ fuel →
      GroupClass.iterAux l i = (l.drop i).take (l.length - 1 - i) := by
  intro fuel
  induction fuel with
  | zero =>
    intro l i h
    rw [GroupClass.iterAux, dif_neg (by omega)]
    rw [List.drop_eq_nil_of_le (by omega)]
    simp
  | succ f ih =>
    intro l i h
    rw [GroupClass.iterAux]
    by_cases hc : i + 1 < l.length
    · rw [dif_pos hc, ih l (i + 1) (by omega)]
      rw [List.drop_eq_getElem_cons (show i < l.length by omega)]
      have harith : l.length - 1 - i = (l.length - 1 - (i + 1)) + 1 := by omega
      rw [harith, List.take_succ_cons, List.get_eq_getElem]
    · rw [dif_neg hc]
      have : l.length - 1 - i = 0 := by omega
      rw [this, List.take_zero]

/-! ### Concrete fixtures used by witnesses, counterexamples and
evaluation theorems: a document with one group G1 owning one task T1, and
a network oracle on which every fetch raises. -/

def d1 : Doc :=
  { settings := []
    groups := [("G1", { group_name := "grp", group_tasks := ["T1"] })]
    tasks := [("T1", { task_name := "task", button_text := none, url := [],
                       file_path := none, directory_path := none })] }

def g1 : GroupClass := { group_id := "G1", group_name := "grp", group_tasks := ["T1"] }

def fetchNone : Fetch := fun _ => none

/-- C6: remove_setting(name) raises the not-found error unconditionally;
when the key was present it is nevertheless deleted and the document
persisted before the error is raised.  When the key is absent, aerase is
the identity, so the single equation below covers both cases: the result
document is always the input with the key erased from settings, and the
result is always the NotFound error. -/
theorem C6_remove_setting_always_raises (name : String) (d : Doc) :
    remove_setting name d =
      ({ d with settings := aerase name d.settings }, Except.error (PyExc.notFound name)) := by
  unfold remove_setting
  by_cases h : (alookup d.settings name).isSome
  · rw [if_pos h]
  · rw [if_neg h]
    have hn : alookup d.settings name = none := by
      cases he : alookup d.settings name
      · rfl
      · rw [he] at h; simp at h
    rw [aerase_of_lookup_none _ _ hn]

/-- C7: iterating a group as a sequence yields exactly the first n - 1
member task ids in list order, where n is the member-list length, and
stops; for an empty member list (n = 0, where take (0 - 1) = take 0) it
yields nothing.  The single take equation covers both cases of the claim. -/
theorem C7_iteration_truncated (g : GroupClass) :
    GroupClass.iterate g = g.group_tasks.take (g.group_tasks.length - 1) := by
  unfold GroupClass.iterate
  rw [iterAux_eq g.group_tasks.length g.group_tasks 0 (by omega)]
  simp

/-- C8: append of an id already present fails with the already-a-member
error and returns the group object and document unchanged; remove of an id
not present fails with the not-in-group error and returns them unchanged
(both raise before any mutation or save). -/
theorem C8_error_atomicity (g : GroupClass) (d : Doc) (t1 t2 : String)
    (h1 : t1 ∈ g.group_tasks) (h2 : t2 ∉ g.group_tasks) :
    GroupClass.append g t1 d =
      ((g, d), Except.error (PyExc.taskAlreadyInGroup g.group_name t1)) ∧
    GroupClass.remove g t2 d =
      ((g, d), Except.error (PyExc.taskNotFoundInGroup g.group_name t2)) := by
  constructor
  · unfold GroupClass.append; rw [if_pos h1]
  · unfold GroupClass.remove; rw [if_pos h2]

/-- C8 witness: both error cases on the concrete document d1. -/
theorem C8_error_atomicity_witness :
    GroupClass.append g1 "T1" d1 =
      ((g1, d1), Except.error (PyExc.taskAlreadyInGroup "grp" "T1")) ∧
    GroupClass.remove g1 "T9" d1 =
      ((g1, d1), Except.error (PyExc.taskNotFoundInGroup "grp" "T9")) :=
  C8_error_atomicity g1 d1 "T1" "T9" (by decide) (by decide)

/-- Used by the rehydration proofs: GroupClass.__init__ normalizes an empty
member list to [], which is the identity on the value read from the file. -/
theorem if_isEmpty_eq {α : Type} (l : List α) : (if l.isEmpty then ([] : List α) else l) = l := by
  cases l <;> rfl

theorem groupRec_eta (gr : GroupRec) :
    ({ group_name := gr.group_name, group_tasks := gr.group_tasks } : GroupRec) = gr := rfl

theorem taskRec_eta (td : TaskRec) :
    (⟨td.task_name, td.button_text, td.url, td.file_path, td.directory_path⟩ : TaskRec) = td := rfl

/-- C10: the lookups get_task_by_id and get_group_by_id leave the document
unchanged whenever they succeed: the rehydrating constructor writes back
exactly the record that was read (the task path goes through the url
setter with a verbatim list, and get_group_id_of_task only reads), and
aupdate with the value already stored at the key is the identity. -/
theorem C10_lookup_frame (fetch : Fetch) (d dg dt : Doc) (gid tid : String)
    (g : GroupClass) (t : TaskClass)
    (hg : get_group_by_id gid d = (dg, Except.ok g))
    (ht : get_task_by_id fetch tid d = (dt, Except.ok t)) :
    dg = d ∧ dt = d := by
  constructor
  · unfold get_group_by_id at hg
    cases hl : alookup d.groups gid with
    | none => rw [hl] at hg; simp at hg
    | some gr =>
      rw [hl] at hg
      unfold GroupClass.make at hg
      simp only [if_isEmpty_eq] at hg
      have hgroups : aupdate gid { group_name := gr.group_name, group_tasks := gr.group_tasks } d.groups
          = d.groups := aupdate_self gid _ d.groups hl
      rw [Prod.mk.injEq] at hg
      rw [← hg.1]
      unfold save_group
      simp only [hgroups]
  · unfold get_task_by_id at ht
    cases hl : alookup d.tasks tid with
    | none => rw [hl] at ht; simp at ht
    | some td =>
      rw [hl] at ht
      cases hgid : get_group_id_of_task tid d with
      | error e => rw [hgid] at ht; simp at ht
      | ok owner =>
        rw [hgid] at ht
        unfold TaskClass.make at ht
        simp only [url_setter] at ht
        rw [Prod.mk.injEq] at ht
        rw [← ht.1]
        unfold save_task get_task_data
        simp only [taskRec_eta]
        simp only [aupdate_self tid td d.tasks hl]

/-- C10 witness: both lookups succeed on d1 and leave it unchanged. -/
theorem C10_lookup_frame_witness :
    (get_group_by_id "G1" d1).1 = d1 ∧ (get_task_by_id fetchNone "T1" d1).1 = d1 :=
  C10_lookup_frame fetchNone d1 _ _ "G1" "T1"
    { group_id := "G1", group_name := "grp", group_tasks := ["T1"] }
    { task_id := "T1", group_id := "G1", task_name := "task", button_text := none,
      url := [], file_path := none, directory_path := none }
    rfl rfl

/-- C5 counterexample: an unreadable backing file raises PermissionError,
which the except clause (json.JSONDecodeError, FileNotFoundError,
KeyError) does not catch, so the document is not replaced with the fresh
empty document, contrary to the claim that every bad state is repaired. -/
theorem C5_bootstrap_counterexample :
    initStore FileState.unreadable = (FileState.unreadable, Except.error PyExc.osError) ∧
    FileState.unreadable ≠ emptyFileState :=
  ⟨rfl, by decide⟩

/-- C5 amended: store initialization replaces the document with the fresh
empty document exactly when the read raises FileNotFoundError (missing
file), json.JSONDecodeError (content that fails JSON parsing) or KeyError
(a parsed mapping lacking one of the three required top-level keys); an
unreadable file, undecodable bytes, or a parsed non-mapping propagate
their exception instead.  After a repair, every load operation reads the
empty document, whose group and task listings are empty. -/
theorem C5_bootstrap_repair (fs : FileState)
    (h : fs = FileState.missing ∨ fs = FileState.notJson ∨
      ∃ s g t dd, fs = FileState.parsed s g t dd ∧ (s && g && t) = false) :
    initStore fs = (emptyFileState, Except.ok ()) ∧
    load_groups emptyDoc = [] ∧ load_tasks emptyDoc = [] := by
  refine ⟨?_, rfl, rfl⟩
  rcases h with h | h | ⟨s, g, t, dd, rfl, hb⟩
  · subst h; rfl
  · subst h; rfl
  · simp [initStore, hb]

/-- C5 witness: the missing-file state is repaired to the empty document. -/
theorem C5_bootstrap_repair_witness :
    initStore FileState.missing = (emptyFileState, Except.ok ()) ∧
    load_groups emptyDoc = [] ∧ load_tasks emptyDoc = [] :=
  C5_bootstrap_repair FileState.missing (Or.inl rfl)

/-- C1 evaluation: on a document whose only group G1 owns the single task
T1, delete_group_and_tasks removes the group entry and writes the
document, but the cascade then calls get_task_by_id, whose
get_group_id_of_task scan no longer finds any group containing T1 and
raises NotFound; the run ends with the real NotFound error (not fuel
exhaustion) and tasks still contains T1 - an orphaned task record,
contradicting the claim and the method docstring. -/
theorem C1_delete_group_orphans_tasks :
    GroupClass.delete_group_and_tasks fetchNone g1 5 d1 =
      ({ settings := [], groups := [],
         tasks := [("T1", { task_name := "task", button_text := none, url := [],
                            file_path := none, directory_path := none })] },
       Except.error (PyExc.notFound "T1")) := by
  simp [GroupClass.delete_group_and_tasks, cascadeDelete, get_task_by_id,
        get_group_id_of_task, groupScan, alookup, aerase, d1, g1]

/-- C2 evaluation: GroupClass.delete_task("T1") on the same document
removes T1 from the member list and saves the group, but the subsequent
delete_task_by_id re-reads the document, in which T1 is now in no group,
so get_group_id_of_task raises NotFound before TaskClass.delete_task can
run; tasks["T1"] is never deleted, contradicting the claim and the method
docstring.  (The first half of the claim, failing with the
task-not-in-group error when the id is not a member, does hold: it is the
guard of GroupClass.delete_task.) -/
theorem C2_group_delete_task_keeps_record :
    GroupClass.delete_task fetchNone g1 "T1" 5 d1 =
      (({ group_id := "G1", group_name := "grp", group_tasks := [] },
        { settings := [],
          groups := [("G1", { group_name := "grp", group_tasks := [] })],
          tasks := [("T1", { task_name := "task", button_text := none, url := [],
                             file_path := none, directory_path := none })] }),
       Except.error (PyExc.notFound "T1")) := by
  simp [GroupClass.delete_task, GroupClass.remove, delete_task_by_id, get_task_by_id,
        get_group_id_of_task, groupScan, alookup, save_group, aupdate, d1, g1]

/-- C3 counterexample: g1 has the duplicate-free member list ["T1"], yet
create_task with the explicitly supplied task_id "T1" succeeds and leaves
the member list ["T1", "T1"], because create_task appends with a plain
list append instead of GroupClass.append and performs no duplicate
check. -/
theorem C3_member_list_counterexample :
    g1.group_tasks.Nodup ∧
    (GroupClass.create_task fetchNone "" 0 g1 "t2" (some "T1") none
        UrlArg.noneU none none d1).2 =
      Except.ok ({ group_id := "G1", group_name := "grp", group_tasks := ["T1", "T1"] },
        { task_id := "T1", group_id := "G1", task_name := "t2", button_text := none,
          url := [], file_path := none, directory_path := none }) ∧
    ¬ (["T1", "T1"] : List String).Nodup :=
  ⟨by decide, rfl, by decide⟩

/-- C3 amended: insert and append preserve the no-duplicates property of
the member list (their guards raise on a duplicate id), and create_task
always appends the new task id exactly once; create_task preserves
no-duplicates only when the created task id is not already in the member
list, which an explicitly supplied duplicate task_id violates. -/
theorem C3_member_list_nodup (g : GroupClass) (d : Doc) (hnd : g.group_tasks.Nodup) :
    (∀ i tid g2 d2, GroupClass.insert g i tid d = ((g2, d2), Except.ok ()) →
      g2.group_tasks.Nodup) ∧
    (∀ tid g2 d2, GroupClass.append g tid d = ((g2, d2), Except.ok ()) →
      g2.group_tasks.Nodup) ∧
    (∀ fetch base fuel nm tid bt url fp dp d2 g2 t,
      GroupClass.create_task fetch base fuel g nm tid bt url fp dp d =
          (d2, Except.ok (g2, t)) →
      g2.group_tasks = g.group_tasks ++ [t.task_id] ∧
      (t.task_id ∉ g.group_tasks → g2.group_tasks.Nodup)) := by
  refine ⟨?_, ?_, ?_⟩
  · intro i tid g2 d2 h
    by_cases hm : tid ∈ g.group_tasks
    · simp [GroupClass.insert, hm] at h
    · simp only [GroupClass.insert, if_neg hm, Prod.mk.injEq] at h
      rw [← h.1.1]
      have hperm : List.Perm (g.group_tasks.take i ++ tid :: g.group_tasks.drop i)
          (tid :: g.group_tasks) := by
        have hp : List.Perm (g.group_tasks.take i ++ tid :: g.group_tasks.drop i)
            (tid :: (g.group_tasks.take i ++ g.group_tasks.drop i)) := List.perm_middle
        simpa [List.take_append_drop] using hp
      exact hperm.symm.nodup (List.nodup_cons.mpr ⟨hm, hnd⟩)
  · intro tid g2 d2 h
    by_cases hm : tid ∈ g.group_tasks
    · simp [GroupClass.append, hm] at h
    · simp only [GroupClass.append, if_neg hm, Prod.mk.injEq] at h
      rw [← h.1.1]
      exact (List.perm_append_singleton tid g.group_tasks).symm.nodup
        (List.nodup_cons.mpr ⟨hm, hnd⟩)
  · intro fetch base fuel nm tid bt url fp dp d2 g2 t h
    unfold GroupClass.create_task at h
    cases hmk : TaskClass.make fetch base fuel g.group_id nm tid bt url fp dp d with
    | mk d3 r =>
      rw [hmk] at h
      cases r with
      | error e => simp at h
      | ok t2 =>
        simp only [Prod.mk.injEq, Except.ok.injEq] at h
        obtain ⟨-, hg2, ht⟩ := h
        rw [← hg2, ← ht]
        refine ⟨rfl, fun hm => ?_⟩
        exact (List.perm_append_singleton t2.task_id g.group_tasks).symm.nodup
          (List.nodup_cons.mpr ⟨hm, hnd⟩)

/-- C3 witness: on d1, inserting the fresh id T9 at index 0, appending T9,
and creating a task with explicit fresh id T9 all preserve no-duplicates,
and create_task appends the id exactly once. -/
theorem C3_member_list_nodup_witness :
    (GroupClass.insert g1 0 "T9" d1).1.1.group_tasks.Nodup ∧
    (GroupClass.append g1 "T9" d1).1.1.group_tasks.Nodup ∧
    ((["T1", "T9"] : List String) = g1.group_tasks ++ ["T9"] ∧
      (["T1", "T9"] : List String).Nodup) := by
  have h := C3_member_list_nodup g1 d1 (by decide)
  have h3 := h.2.2 fetchNone "" 0 "t2" (some "T9") none UrlArg.noneU none none _
    { group_id := "G1", group_name := "grp", group_tasks := ["T1", "T9"] }
    { task_id := "T9", group_id := "G1", task_name := "t2", button_text := none,
      url := [], file_path := none, directory_path := none } rfl
  exact ⟨h.1 0 "T9" _ _ rfl, h.2.1 "T9" _ _ rfl, h3.1, h3.2 (by decide)⟩

/-- C4 evaluation: with the url string "bad good" and an oracle on which
every fetch raises, the setter drops "bad" with pop(0); the following
candidate "good" shifts into index 0, but both the enumerate counter and
the list iterator advance to index 1, so "good" is never passed to
verify_url_root and is stored raw (no scheme prefix, no fetch).  Applying
the verify-root operation to every delimited candidate in order, as the
claim states, would instead drop both and store []. -/
theorem C4_url_candidates_skipped :
    url_setter fetchNone (UrlArg.strU "bad good") = ["good"] ∧
    List.filterMap (verify_url_root fetchNone) (pySplit "bad good") = [] ∧
    verify_url_root fetchNone "good" = none :=
  ⟨rfl, rfl, rfl⟩

/-! ### Decimal representation: Nat.repr is injective.  str(count) in the
id-generation f-strings is Nat.repr, so distinct counter values give
distinct candidate ids; this drives termination of the generation loop. -/

def natDigits (n : Nat) : List Char :=
  if h : n / 10 = 0 then [Nat.digitChar (n % 10)]
  else natDigits (n / 10) ++ [Nat.digitChar (n % 10)]
decreasing_by
  have hn : n ≠ 0 := fun e => h (by subst e; rfl)
  exact Nat.div_lt_self (Nat.pos_of_ne_zero hn) (by omega)

def digitVal (c : Char) : Nat := c.toNat - 48

theorem digitVal_digitChar (d : Nat) (h : d < 10) : digitVal (Nat.digitChar d) = d := by
  interval_cases d <;> rfl

theorem natDigits_foldl (n : Nat) :
    ∀ a : Nat, ((natDigits n).foldl (fun x c => 10 * x + digitVal c) a)
      = a * 10 ^ (natDigits n).length + n := by
  induction n using Nat.strong_induction_on with
  | _ n ih =>
    intro a
    by_cases h : n / 10 = 0
    · rw [natDigits, dif_pos h]
      have hlt : n < 10 := by omega
      simp [List.foldl, digitVal_digitChar _ (Nat.mod_lt _ (by omega))]
      have : n % 10 = n := Nat.mod_eq_of_lt hlt
      omega
    · rw [natDigits, dif_neg h]
      have hn : n ≠ 0 := fun e => h (by subst e; rfl)
      have hlt : n / 10 < n := Nat.div_lt_self (Nat.pos_of_ne_zero hn) (by omega)
      rw [List.foldl_append, ih (n / 10) hlt a]
      simp only [List.foldl, List.length_append, List.length_singleton]
      rw [digitVal_digitChar _ (Nat.mod_lt _ (by omega))]
      rw [pow_succ, ← mul_assoc]
      generalize a * 10 ^ (natDigits (n / 10)).length = P
      omega

theorem natDigits_inj (m n : Nat) (h : natDigits m = natDigits n) : m = n := by
  have hm := natDigits_foldl m 0
  have hn := natDigits_foldl n 0
  rw [h] at hm
  omega

theorem toDigitsCore_eq_natDigits :
    ∀ (fuel n : Nat) (acc : List Char), n < fuel →
      Nat.toDigitsCore 10 fuel n acc = natDigits n ++ acc := by
  intro fuel
  induction fuel with
  | zero => intro n acc h; omega
  | succ f ih =>
    intro n acc h
    by_cases h0 : n / 10 = 0
    · simp only [Nat.toDigitsCore, h0, if_pos]
      rw [natDigits, dif_pos h0]
      rfl
    · simp only [Nat.toDigitsCore, h0, if_neg, if_false]
      have hn : n ≠ 0 := fun e => h0 (by subst e; rfl)
      have hlt : n / 10 < n := Nat.div_lt_self (Nat.pos_of_ne_zero hn) (by omega)
      rw [ih (n / 10) _ (by omega)]
      conv_rhs => rw [natDigits, dif_neg h0]
      simp

theorem natRepr_inj (m n : Nat) (h : Nat.repr m = Nat.repr n) : m = n := by
  apply natDigits_inj
  have h2 : (Nat.toDigits 10 m).asString = (Nat.toDigits 10 n).asString := h
  have h3 : Nat.toDigits 10 m = Nat.toDigits 10 n := by
    have := congrArg String.data h2
    simpa [List.asString] using this
  unfold Nat.toDigits at h3
  rw [toDigitsCore_eq_natDigits (m + 1) m [] (by omega),
      toDigitsCore_eq_natDigits (n + 1) n [] (by omega)] at h3
  simpa using h3

/-- The candidate sequence visited by the id-generation loop: iteration 0
probes pre ++ base, iteration k + 1 probes pre ++ base ++ "-" ++ repr (k + 1)
(the loop body with count = k + 1). -/
def idCand (pre base : String) : Nat → String
  | 0 => pre ++ base
  | k + 1 => pre ++ base ++ "-" ++ Nat.repr (k + 1)

theorem string_append_cancel_left (s a b : String) (h : s ++ a = s ++ b) : a = b := by
  have h2 := congrArg String.data h
  simp [String.data_append] at h2
  cases a; cases b; exact congrArg String.mk h2

theorem idCand_inj_pos (pre base : String) (m n : Nat)
    (h : idCand pre base (m + 1) = idCand pre base (n + 1)) : m = n := by
  unfold idCand at h
  have h2 : Nat.repr (m + 1) = Nat.repr (n + 1) :=
    string_append_cancel_left (pre ++ base ++ "-") _ _ h
  have := natRepr_inj _ _ h2
  omega

/-- Pigeonhole: an injective candidate sequence cannot lie entirely inside
a finite list of used ids; some index at most U.length escapes. -/
theorem exists_fresh_cand (U : List String) (f : Nat → String)
    (hf : ∀ m n, f m = f n → m = n) :
    ∃ k, k ≤ U.length ∧ f k ∉ U := by
  by_contra hall
  push_neg at hall
  have hnd : ((List.range (U.length + 1)).map f).Nodup :=
    List.Nodup.map (fun a b hab => hf a b hab) (List.nodup_range (U.length + 1))
  have hsub : ((List.range (U.length + 1)).map f).toFinset ⊆ U.toFinset := by
    intro x hx
    rw [List.mem_toFinset] at hx
    rw [List.mem_toFinset]
    rcases List.mem_map.mp hx with ⟨k, hk, rfl⟩
    exact hall k (Nat.lt_succ_iff.mp (List.mem_range.mp hk))
  have h1 : ((List.range (U.length + 1)).map f).toFinset.card = U.length + 1 := by
    rw [List.toFinset_card_of_nodup hnd]
    simp
  have h2 := Finset.card_le_card hsub
  have h3 : U.toFinset.card ≤ U.length := List.toFinset_card_le U
  omega

theorem is_id_used_false_iff (i : String) (d : Doc) :
    is_id_used i d = false ↔ i ∉ akeys d.groups ∧ i ∉ akeys d.tasks := by
  simp [is_id_used]

/-- If some candidate inside the remaining fuel window is unused, the
generation loop returns an id, and any id it returns is unused (the loop
only exits on a candidate failing the is_id_used check). -/
theorem genIdLoop_finds (pre base : String) (d : Doc) :
    ∀ (fuel k : Nat),
      (∃ j, k ≤ j ∧ j < k + fuel ∧ is_id_used (idCand pre base j) d = false) →
      ∃ newId, genIdLoop pre base d (idCand pre base k) (k + 1) fuel = some newId ∧
        is_id_used newId d = false := by
  intro fuel
  induction fuel with
  | zero =>
    intro k h
    obtain ⟨j, h1, h2, _⟩ := h
    omega
  | succ f ih =>
    intro k h
    obtain ⟨j, h1, h2, h3⟩ := h
    by_cases hu : is_id_used (idCand pre base k) d = true
    · have hnext : genIdLoop pre base d (idCand pre base k) (k + 1) (f + 1)
          = genIdLoop pre base d (idCand pre base (k + 1)) (k + 2) f := by
        simp only [genIdLoop, hu, if_true]
        rfl
      rw [hnext]
      apply ih (k + 1)
      have hjk : j ≠ k := by
        intro e
        subst e
        rw [h3] at hu
        exact Bool.noConfusion hu
      exact ⟨j, by omega, by omega, h3⟩
    · refine ⟨idCand pre base k, ?_, by simpa using hu⟩
      simp [genIdLoop, hu]

/-- C9: for every prefix ("T_" for tasks, "G_" for groups), every base
string str(id(self)) and every document, the id-generation loop terminates
(some finite fuel makes it return an id) and the generated id passes the
is_id_used check, i.e. it is distinct from every id present in the groups
key set and from every id present in the tasks key set. -/
theorem C9_generated_id_fresh (pre base : String) (d : Doc) :
    ∃ fuel newId, gen_id pre base d fuel = some newId ∧
      is_id_used newId d = false ∧
      newId ∉ akeys d.groups ∧ newId ∉ akeys d.tasks := by
  obtain ⟨k, hk, hfresh⟩ :=
    exists_fresh_cand (akeys d.groups ++ akeys d.tasks)
      (fun k => idCand pre base (k + 1))
      (fun m n h => idCand_inj_pos pre base m n h)
  have hused : is_id_used (idCand pre base (k + 1)) d = false := by
    rw [is_id_used_false_iff]
    constructor
    · intro hmem; exact hfresh (List.mem_append.mpr (Or.inl hmem))
    · intro hmem; exact hfresh (List.mem_append.mpr (Or.inr hmem))
  obtain ⟨newId, hrun, hfree⟩ :=
    genIdLoop_finds pre base d (k + 2) 0 ⟨k + 1, by omega, by omega, hused⟩
  have hfree2 := (is_id_used_false_iff newId d).mp hfree
  refine ⟨k + 2, newId, ?_, hfree, hfree2.1, hfree2.2⟩
  simpa [gen_id, idCand] using hrun
